import Mathlib

/-
Verification of host_setup/bridge_usb.py (ESP32 USB-to-TAP bridge).

The file embeds the three pieces of the program that carry real logic:

1. device discovery: detect_esp32_acm and find_usb_parent_sysfs, including
   the per-candidate sysfs walk, the vendor-id comparison and the
   selection / fallback policy over the sorted candidate list;
2. the forwarding loop body (the while True loop in main): serial
   in_waiting check, read of all waiting bytes, write to the TAP fd,
   select with timeout on the TAP fd, read of at most 1500 bytes,
   write to the serial port;
3. the setup / teardown structure of main: the try blocks around
   serial.Serial and create_tap, the KeyboardInterrupt handler and the
   finally block that closes both handles, modelled as an event trace.

Python strings are modelled as Lean String; the str.lower, str.strip
operations and the lexicographic path order used by sorted() are given
explicit List Char implementations so that all definitions evaluate by
kernel reduction.  Bytes are modelled as Nat.
-/

/-- Lexicographic less-or-equal on char lists, by Unicode code point.
This is the order Python applies when sorted() compares device paths. -/
def chLe : List Char → List Char → Bool
  | [], _ => true
  | _ :: _, [] => false
  | a :: as, b :: bs =>
    if a.toNat < b.toNat then true
    else if b.toNat < a.toNat then false
    else chLe as bs

/-- Lexicographic less-or-equal on strings, by Unicode code point. -/
def pathLe (a b : String) : Bool := chLe a.data b.data

/-- Embedding of Python str.lower for the ASCII hex strings involved. -/
def pyLower (s : String) : String := ⟨s.data.map Char.toLower⟩

/-- Embedding of Python str.strip: drop whitespace at both ends. -/
def pyStrip (s : String) : String :=
  ⟨((s.data.dropWhile Char.isWhitespace).reverse.dropWhile Char.isWhitespace).reverse⟩

/-- Espressif vendor id constant ESPRESSIF_USB_VID = "303a" from bridge_usb.py. -/
def ESPRESSIF_USB_VID : String := "303a"

/-- Outcome of the per-candidate metadata lookup in detect_esp32_acm:
find_usb_parent_sysfs returned None, or reading idVendor / idProduct
raised OSError, or both attribute files were read with the given raw
contents. -/
inductive MetaResult where
  | noParent
  | readFailed
  | ok (vidRaw pidRaw : String)
deriving DecidableEq

/-- Diagnostic messages printed by detect_esp32_acm, one constructor per
print statement that reports a per-candidate or selection outcome. -/
inductive Diag where
  | noParent (dev : String)
  | readFailed (dev : String)
  | seen (dev vid pid : String)
  | selectedUnique (dev : String)
  | ambiguous (ports : List String)
  | fallbackFirst (dev : String)
  | noDevices
deriving DecidableEq

/-- Vendor comparison from detect_esp32_acm: the raw idVendor file content
is stripped and lowercased, then compared with ESPRESSIF_USB_VID. -/
def vendorMatches (vidRaw : String) : Bool :=
  pyLower (pyStrip vidRaw) == ESPRESSIF_USB_VID

/-- Lift of vendorMatches to the result of the metadata lookup: a candidate
whose lookup failed never matches. -/
def metaVendorOk : MetaResult → Bool
  | MetaResult.ok vidRaw _ => vendorMatches vidRaw
  | _ => false

/-- Per-candidate loop of detect_esp32_acm over the (already sorted)
candidate list: returns the esp_ports list and the diagnostics, in
candidate order.  Candidates whose metadata lookup fails are skipped
with a diagnostic; candidates whose vendor id matches are collected. -/
def scan (meta : String → MetaResult) : List String → List String × List Diag
  | [] => ([], [])
  | dev :: rest =>
    let r := scan meta rest
    match meta dev with
    | MetaResult.noParent => (r.fst, Diag.noParent dev :: r.snd)
    | MetaResult.readFailed => (r.fst, Diag.readFailed dev :: r.snd)
    | MetaResult.ok vidRaw pidRaw =>
      (if vendorMatches vidRaw then dev :: r.fst else r.fst,
       Diag.seen dev (pyLower (pyStrip vidRaw)) (pyLower (pyStrip pidRaw)) :: r.snd)

/-- Sorted candidate list: sorted(glob.glob("/dev/ttyACM*")) in the code.
The enumeration result is the paths argument; sorted() is modelled by
insertion sort under the lexicographic path order. -/
def sortedPaths (paths : List String) : List String :=
  List.insertionSort (fun a b => pathLe a b = true) paths

/-- Vendor-matched candidates in sorted-by-path order: the esp_ports list
detect_esp32_acm builds, expressed as a filter over the sorted paths. -/
def matchedPorts (paths : List String) (meta : String → MetaResult) : List String :=
  (sortedPaths paths).filter (fun d => metaVendorOk (meta d))

/-- Embedding of detect_esp32_acm.  The paths argument is the glob
enumeration (in arbitrary order); meta is the filesystem oracle giving
each candidate its metadata lookup outcome.  Returns the selected path
(None when there are no candidates at all) together with diagnostics.
The three branches mirror len(esp_ports) == 1, len(esp_ports) > 1 and
the fallback else branch of the code. -/
def detect_esp32_acm (paths : List String) (meta : String → MetaResult) :
    Option String × List Diag :=
  match sortedPaths paths with
  | [] => (none, [Diag.noDevices])
  | c0 :: rest =>
    let scanned := scan meta (c0 :: rest)
    match scanned.fst with
    | [p] => (some p, scanned.snd ++ [Diag.selectedUnique p])
    | p :: q :: more => (some p, scanned.snd ++ [Diag.ambiguous (p :: q :: more)])
    | [] => (some c0, scanned.snd ++ [Diag.fallbackFirst c0])

/-- Fuel-indexed body of the for loop in find_usb_parent_sysfs: at each
step the current node is tested for exposing both idVendor and
idProduct; otherwise the walk moves to the parent directory, stopping
when dirname reaches a fixed point. -/
def find_usb_parent_walk (hasAttrs : String → Bool) (dirname : String → String) :
    Nat → String → Option String
  | 0, _ => none
  | Nat.succ fuel, path =>
    if hasAttrs path then some path
    else
      let newPath := dirname path
      if newPath == path then none
      else find_usb_parent_walk hasAttrs dirname fuel newPath

/-- Embedding of find_usb_parent_sysfs: the bounded walk with range(5)
starting from the resolved device symlink.  hasAttrs d models
os.path.exists(d/idVendor) and os.path.exists(d/idProduct); dirname
models os.path.dirname. -/
def find_usb_parent_sysfs (hasAttrs : String → Bool) (dirname : String → String)
    (start : String) : Option String :=
  find_usb_parent_walk hasAttrs dirname 5 start

/-- Ethernet MTU constant: the 1500 in os.read(tap_fd, 1500). -/
def ETH_MTU : Nat := 1500

/-- Timeout of the select call in the loop, in milliseconds: the 0.1 in
select.select([tap_fd], [], [], 0.1). -/
def SELECT_TIMEOUT_MS : Nat := 100

/-- State visible to one iteration of the forwarding loop: the bytes
waiting in the serial receive buffer, the frames queued for reading on
the TAP fd, and the write histories of both endpoints.  ser_written is
the byte stream written to the serial port; tap_written records one
entry per os.write call on the TAP fd. -/
structure BridgeState where
  ser_buf : List Nat
  tap_frames : List (List Nat)
  ser_written : List Nat
  tap_written : List (List Nat)
deriving DecidableEq

/-- Model of ser.in_waiting: number of bytes in the receive buffer. -/
def ser_in_waiting (st : BridgeState) : Nat := st.ser_buf.length

/-- Model of ser.read(n): returns up to n waiting bytes and removes them
from the receive buffer. -/
def ser_read (n : Nat) (st : BridgeState) : List Nat × BridgeState :=
  (st.ser_buf.take n, { st with ser_buf := st.ser_buf.drop n })

/-- Model of ser.write(data): appends data to the serial output stream. -/
def ser_write (data : List Nat) (st : BridgeState) : BridgeState :=
  { st with ser_written := st.ser_written ++ data }

/-- Model of os.write(tap_fd, data): injects data as one buffer. -/
def tap_write (data : List Nat) (st : BridgeState) : BridgeState :=
  { st with tap_written := st.tap_written ++ [data] }

/-- Model of select.select([tap_fd], [], [], 0.1): the fd is reported
ready within the timeout exactly when a frame is queued. -/
def tap_select_ready (st : BridgeState) : Bool := !st.tap_frames.isEmpty

/-- Model of os.read(tap_fd, n) on a TAP device: one read consumes one
queued frame and returns at most n of its bytes. -/
def tap_read (n : Nat) (st : BridgeState) : List Nat × BridgeState :=
  match st.tap_frames with
  | [] => ([], st)
  | f :: rest => (f.take n, { st with tap_frames := rest })

/-- One iteration of the while True loop in main: first the serial
direction (in_waiting check, read of all waiting bytes, guarded write
to the TAP fd), then the TAP direction (select with timeout, read of at
most ETH_MTU bytes, guarded write to the serial port). -/
def loopIter (st : BridgeState) : BridgeState :=
  let st1 :=
    if 0 < ser_in_waiting st then
      let r := ser_read (ser_in_waiting st) st
      if r.fst.isEmpty then r.snd else tap_write r.fst r.snd
    else st
  if tap_select_ready st1 then
    let r := tap_read ETH_MTU st1
    if r.fst.isEmpty then r.snd else ser_write r.fst r.snd
  else st1

/-- Iterated forwarding loop: n iterations of loopIter. -/
def bridgeRun (st : BridgeState) : Nat → BridgeState
  | 0 => st
  | Nat.succ n => bridgeRun (loopIter st) n

/-- Buffers newly written to the TAP fd by one iteration started in st. -/
def tapChunksMoved (st : BridgeState) : List (List Nat) :=
  (loopIter st).tap_written.drop st.tap_written.length

/-- Bytes newly written to the serial port by one iteration started in st. -/
def serBytesMoved (st : BridgeState) : List Nat :=
  (loopIter st).ser_written.drop st.ser_written.length

/-- Observable events of main between opening the serial port and process
exit: handle lifecycle events, the shutdown notice printed on
KeyboardInterrupt, the final Bridge stopped print, and the exit code. -/
inductive Ev where
  | openSerial
  | closeSerial
  | createTap
  | closeTap
  | shutdownNotice
  | bridgeStopped
  | exitCode (c : Nat)
deriving DecidableEq

/-- Way the forwarding loop terminates: KeyboardInterrupt (operator
cancellation) or an exception raised by a read or write call. -/
inductive LoopExit where
  | cancelled
  | ioFailure
deriving DecidableEq

/-- Environment of one run of main: whether serial.Serial succeeds and
whether create_tap succeeds. -/
structure SetupEnv where
  serialOpens : Bool
  tapCreates : Bool
deriving DecidableEq

/-- Event trace of main from the serial open attempt onward, following
the two try/except blocks, the try/except KeyboardInterrupt/finally
around the loop, and Python process exit codes: sys.exit(1) on setup
failure, exit code 0 after the KeyboardInterrupt handler returns, and a
non-zero exit when a loop exception propagates (after the finally block
has closed both handles). -/
def mainTrace (env : SetupEnv) (ex : LoopExit) : List Ev :=
  if !env.serialOpens then [Ev.exitCode 1]
  else
    Ev.openSerial ::
    (if !env.tapCreates then [Ev.closeSerial, Ev.exitCode 1]
     else
       Ev.createTap ::
       (match ex with
        | LoopExit.cancelled =>
          [Ev.shutdownNotice, Ev.closeSerial, Ev.closeTap, Ev.bridgeStopped, Ev.exitCode 0]
        | LoopExit.ioFailure =>
          [Ev.closeSerial, Ev.closeTap, Ev.bridgeStopped, Ev.exitCode 1]))

/-- Exit code carried by the last event of a trace, when it is an exit. -/
def exitOf (t : List Ev) : Option Nat :=
  match t.getLast? with
  | some (Ev.exitCode c) => some c
  | _ => none

/-- Events of a trace that happen before the final exit event. -/
def preExit (t : List Ev) : List Ev := t.dropLast

/-- Characters with equal code points are equal. -/
theorem char_toNat_inj (a b : Char) (h : a.toNat = b.toNat) : a = b := by
  have h2 := congrArg Char.ofNat h
  rwa [Char.ofNat_toNat, Char.ofNat_toNat] at h2

/-- Strings with equal character data are equal. -/
theorem string_data_inj (s t : String) (h : s.data = t.data) : s = t :=
  congrArg String.mk h

/-- Totality of the lexicographic order on char lists. -/
theorem chLe_total : ∀ x y : List Char, chLe x y = true ∨ chLe y x = true
  | [], _ => Or.inl rfl
  | _ :: _, [] => Or.inr rfl
  | a :: as, b :: bs => by
    rcases Nat.lt_trichotomy a.toNat b.toNat with h | h | h
    · left; simp [chLe, h]
    · simp [chLe, h]
      exact chLe_total as bs
    · right; simp [chLe, h]

/-- Transitivity of the lexicographic order on char lists. -/
theorem chLe_trans : ∀ x y z : List Char,
    chLe x y = true → chLe y z = true → chLe x z = true
  | [], _, _ => fun _ _ => rfl
  | _ :: _, [], _ => fun h _ => by simp [chLe] at h
  | _ :: _, _ :: _, [] => fun _ h => by simp [chLe] at h
  | a :: as, b :: bs, c :: cs => fun h1 h2 => by
    by_cases hab : a.toNat < b.toNat <;> by_cases hbc : b.toNat < c.toNat
    · simp [chLe, Nat.lt_trans hab hbc]
    · simp only [chLe, if_neg hbc] at h2
      by_cases hcb : c.toNat < b.toNat
      · simp [if_pos hcb] at h2
      · have hac : a.toNat < c.toNat := by omega
        simp [chLe, hac]
    · simp only [chLe, if_neg hab] at h1
      by_cases hba : b.toNat < a.toNat
      · simp [if_pos hba] at h1
      · have hac : a.toNat < c.toNat := by omega
        simp [chLe, hac]
    · simp only [chLe, if_neg hab] at h1
      simp only [chLe, if_neg hbc] at h2
      by_cases hba : b.toNat < a.toNat
      · simp [if_pos hba] at h1
      · by_cases hcb : c.toNat < b.toNat
        · simp [if_pos hcb] at h2
        · simp only [if_neg hba] at h1
          simp only [if_neg hcb] at h2
          have hac : ¬ a.toNat < c.toNat := by omega
          have hca : ¬ c.toNat < a.toNat := by omega
          simp only [chLe, if_neg hac, if_neg hca]
          exact chLe_trans as bs cs h1 h2

/-- Antisymmetry of the lexicographic order on char lists. -/
theorem chLe_antisymm : ∀ x y : List Char,
    chLe x y = true → chLe y x = true → x = y
  | [], [] => fun _ _ => rfl
  | [], _ :: _ => fun _ h => by simp [chLe] at h
  | _ :: _, [] => fun h _ => by simp [chLe] at h
  | a :: as, b :: bs => fun h1 h2 => by
    by_cases hab : a.toNat < b.toNat
    · have hba : ¬ b.toNat < a.toNat := by omega
      simp [chLe, if_neg hba, if_pos hab] at h2
    · by_cases hba : b.toNat < a.toNat
      · simp [chLe, if_neg hab, if_pos hba] at h1
      · simp only [chLe, if_neg hab, if_neg hba] at h1
        simp only [chLe, if_neg hab, if_neg hba] at h2
        have hchar : a = b := char_toNat_inj a b (by omega)
        have htail : as = bs := chLe_antisymm as bs h1 h2
        rw [hchar, htail]

/-- Sorting is invariant under permutation of the enumeration: two glob
results listing the same paths sort to the same candidate list. -/
theorem sortedPaths_eq_of_perm (paths paths' : List String)
    (h : paths.Perm paths') : sortedPaths paths = sortedPaths paths' := by
  haveI : IsTotal String (fun a b => pathLe a b = true) :=
    ⟨fun a b => chLe_total a.data b.data⟩
  haveI : IsTrans String (fun a b => pathLe a b = true) :=
    ⟨fun a b c h1 h2 => chLe_trans a.data b.data c.data h1 h2⟩
  haveI : IsAntisymm String (fun a b => pathLe a b = true) :=
    ⟨fun a b h1 h2 => string_data_inj a b (chLe_antisymm a.data b.data h1 h2)⟩
  exact List.eq_of_perm_of_sorted
    ((List.perm_insertionSort _ paths).trans
      (h.trans (List.perm_insertionSort _ paths').symm))
    (List.sorted_insertionSort _ paths)
    (List.sorted_insertionSort _ paths')

/-- Sorted candidate list is a permutation of the enumeration. -/
theorem sortedPaths_perm (paths : List String) : (sortedPaths paths).Perm paths :=
  List.perm_insertionSort _ paths

/-- Sorted candidate list is empty exactly when the enumeration is. -/
theorem sortedPaths_nil_iff (paths : List String) :
    sortedPaths paths = [] ↔ paths = [] := by
  constructor
  · intro h
    have := (sortedPaths_perm paths).symm
    rw [h] at this
    exact this.eq_nil
  · intro h
    rw [h]
    rfl

/-- Ports collected by the scan are exactly the vendor-matched candidates,
in list order. -/
theorem scan_fst (meta : String → MetaResult) :
    ∀ l : List String, (scan meta l).fst = l.filter (fun d => metaVendorOk (meta d)) := by
  intro l
  induction l with
  | nil => rfl
  | cons dev rest ih =>
    cases hm : meta dev <;>
      simp [scan, hm, metaVendorOk, List.filter_cons, ih]

/-- Candidates whose sysfs walk fails are reported in the scan diagnostics. -/
theorem scan_snd_noParent (meta : String → MetaResult) :
    ∀ (l : List String) (dev : String), dev ∈ l → meta dev = MetaResult.noParent →
      Diag.noParent dev ∈ (scan meta l).snd := by
  intro l
  induction l with
  | nil => intro dev h; simp at h
  | cons d rest ih =>
    intro dev hmem hmeta
    rcases List.mem_cons.mp hmem with rfl | hmem2
    · simp only [scan, hmeta]
      exact List.mem_cons_self _ _
    · have hrec := ih dev hmem2 hmeta
      cases hm : meta d <;> simp only [scan, hm] <;>
        exact List.mem_cons_of_mem _ hrec

/-- Candidates whose attribute read fails are reported in the scan
diagnostics. -/
theorem scan_snd_readFailed (meta : String → MetaResult) :
    ∀ (l : List String) (dev : String), dev ∈ l → meta dev = MetaResult.readFailed →
      Diag.readFailed dev ∈ (scan meta l).snd := by
  intro l
  induction l with
  | nil => intro dev h; simp at h
  | cons d rest ih =>
    intro dev hmem hmeta
    rcases List.mem_cons.mp hmem with rfl | hmem2
    · simp only [scan, hmeta]
      exact List.mem_cons_self _ _
    · have hrec := ih dev hmem2 hmeta
      cases hm : meta d <;> simp only [scan, hm] <;>
        exact List.mem_cons_of_mem _ hrec

/-- Closed form of one loop iteration: the serial buffer is drained, the
head TAP frame (if any) is consumed, the serial output grows by that
frame truncated to ETH_MTU, and the TAP fd receives one buffer holding
exactly the waiting serial bytes when there were any. -/
theorem loopIter_eq (st : BridgeState) :
    loopIter st =
      { ser_buf := [],
        tap_frames := st.tap_frames.tail,
        ser_written := st.ser_written ++ (st.tap_frames.headD []).take ETH_MTU,
        tap_written := st.tap_written ++ if st.ser_buf.isEmpty then [] else [st.ser_buf] } := by
  have hmtu : ETH_MTU ≠ 0 := by decide
  rcases st with ⟨sb, tf, sw, tw⟩
  rcases sb with _ | ⟨x, xs⟩ <;> rcases tf with _ | ⟨f, fs⟩ <;>
    simp only [loopIter, ser_in_waiting, ser_read, ser_write, tap_write,
      tap_select_ready, tap_read, List.length_cons, List.length_nil,
      List.take_length, List.drop_length, List.isEmpty_nil, List.isEmpty_cons,
      List.tail_cons, List.headD_cons, List.headD_nil, List.tail_nil] <;>
    simp [List.take_eq_nil_iff, hmtu]

/-- After one iteration the serial buffer is empty. -/
theorem loopIter_ser_buf (st : BridgeState) : (loopIter st).ser_buf = [] := by
  rw [loopIter_eq]

/-- Serial output of an n-iteration run: the concatenation, in order, of
the first n TAP frames each truncated to ETH_MTU, and nothing else. -/
theorem bridgeRun_ser_written : ∀ (n : Nat) (st : BridgeState),
    (bridgeRun st n).ser_written =
      st.ser_written ++ ((st.tap_frames.take n).map (fun f => f.take ETH_MTU)).flatten
  | 0, st => by simp [bridgeRun]
  | Nat.succ n, st => by
    have ih := bridgeRun_ser_written n (loopIter st)
    simp only [bridgeRun]
    rw [ih, loopIter_eq]
    cases htf : st.tap_frames with
    | nil => simp
    | cons f fs => simp [List.append_assoc]

/-- A run started with an empty serial buffer never writes to the TAP fd. -/
theorem bridgeRun_tap_written_of_nil : ∀ (n : Nat) (st : BridgeState),
    st.ser_buf = [] → (bridgeRun st n).tap_written = st.tap_written
  | 0, _, _ => rfl
  | Nat.succ n, st, h => by
    have ih := bridgeRun_tap_written_of_nil n (loopIter st) (loopIter_ser_buf st)
    simp only [bridgeRun]
    rw [ih, loopIter_eq]
    simp [h]

/-- C2: per-iteration bridge algorithm.  In every single iteration both
direction checks occur: the serial endpoint is checked via in_waiting
and, when bytes are waiting, all of them are read in one call and
written unchanged as one buffer to the TAP fd (draining the serial
buffer); and the TAP fd is waited on with the 100 ms select timeout
and, when readable, at most one frame of at most ETH_MTU = 1500 bytes
is read in one call and written unchanged to the serial endpoint. -/
theorem c2_per_iteration_algorithm (st : BridgeState) :
    (loopIter st).ser_buf = [] ∧
    (loopIter st).tap_written =
      st.tap_written ++ (if st.ser_buf.isEmpty then [] else [st.ser_buf]) ∧
    (loopIter st).tap_frames = st.tap_frames.tail ∧
    (loopIter st).ser_written =
      st.ser_written ++ (st.tap_frames.headD []).take ETH_MTU ∧
    ((st.tap_frames.headD []).take ETH_MTU).length ≤ ETH_MTU ∧
    SELECT_TIMEOUT_MS = 100 := by
  refine ⟨?_, ?_, ?_, ?_, ?_, rfl⟩
  · rw [loopIter_eq]
  · rw [loopIter_eq]
  · rw [loopIter_eq]
  · rw [loopIter_eq]
  · calc ((st.tap_frames.headD []).take ETH_MTU).length
        = min ETH_MTU (st.tap_frames.headD []).length := List.length_take ..
      _ ≤ ETH_MTU := Nat.min_le_left ..

/-- C3: forwarding fidelity.  Over any number of iterations, the bytes
written to the serial endpoint are exactly the queued TAP frames, in
order, unmodified, with nothing inserted or dropped, whenever every
frame fits in ETH_MTU = 1500 bytes; and the bytes waiting on the serial
endpoint are written to the TAP fd as exactly one unmodified buffer,
with nothing inserted. -/
theorem c3_forwarding_fidelity (st : BridgeState) (n : Nat)
    (hframes : ∀ f ∈ st.tap_frames, f.length ≤ ETH_MTU) :
    (bridgeRun st n).ser_written = st.ser_written ++ (st.tap_frames.take n).flatten ∧
    (bridgeRun st (n + 1)).tap_written =
      st.tap_written ++ (if st.ser_buf.isEmpty then [] else [st.ser_buf]) := by
  constructor
  · rw [bridgeRun_ser_written]
    have hmap : (st.tap_frames.take n).map (fun f => f.take ETH_MTU) = st.tap_frames.take n := by
      have : ∀ f ∈ st.tap_frames.take n, f.take ETH_MTU = f := by
        intro f hf
        exact List.take_of_length_le (hframes f (List.take_subset n st.tap_frames hf))
      calc (st.tap_frames.take n).map (fun f => f.take ETH_MTU)
          = (st.tap_frames.take n).map id := List.map_congr_left this
        _ = st.tap_frames.take n := List.map_id _
    rw [hmap]
  · have h1 : bridgeRun st (n + 1) = bridgeRun (loopIter st) n := rfl
    rw [h1, bridgeRun_tap_written_of_nil n (loopIter st) (loopIter_ser_buf st), loopIter_eq]

/-- C3 witness: a 3-byte frame crosses to the serial side intact and the
serial bytes cross to the TAP side as one intact buffer. -/
theorem c3_forwarding_fidelity_witness :
    (bridgeRun ⟨[7, 8], [[1, 2, 3]], [], []⟩ 1).ser_written = [1, 2, 3] ∧
    (bridgeRun ⟨[7, 8], [[1, 2, 3]], [], []⟩ 2).tap_written = [[7, 8]] := by
  have h := c3_forwarding_fidelity ⟨[7, 8], [[1, 2, 3]], [], []⟩ 1 (by decide)
  exact ⟨h.1, h.2⟩

/-- C10: empty reads are never forwarded.  When the serial endpoint has
nothing waiting, no write is performed on the TAP fd in that iteration;
when the TAP fd has no frame queued, or the frame read from it is
empty, no write is performed on the serial endpoint in that
iteration. -/
theorem c10_empty_reads_not_forwarded (st : BridgeState) :
    (st.ser_buf = [] → (loopIter st).tap_written = st.tap_written) ∧
    (st.tap_frames = [] → (loopIter st).ser_written = st.ser_written) ∧
    (st.tap_frames.headD [] = [] → (loopIter st).ser_written = st.ser_written) := by
  refine ⟨fun h => ?_, fun h => ?_, fun h => ?_⟩
  · rw [loopIter_eq]; simp [h]
  · rw [loopIter_eq, h]; simp
  · rw [loopIter_eq, h]; simp

/-- C10 witness: with nothing waiting on either endpoint, an iteration
writes nothing at all. -/
theorem c10_empty_reads_not_forwarded_witness :
    (loopIter ⟨[], [], [3], [[4]]⟩).tap_written = [[4]] ∧
    (loopIter ⟨[], [], [3], [[4]]⟩).ser_written = [3] :=
  ⟨(c10_empty_reads_not_forwarded ⟨[], [], [3], [[4]]⟩).1 rfl,
   (c10_empty_reads_not_forwarded ⟨[], [], [3], [[4]]⟩).2.1 rfl⟩

/-- C4 counterexample: the claim that every buffer moved in a single
forwarding step contains at most 1500 bytes is false.  When 1501 bytes
are waiting on the serial endpoint, the iteration reads all of them in
one call and writes them to the TAP fd as one buffer of 1501 bytes. -/
theorem c4_frame_size_counterexample :
    ¬ (∀ st : BridgeState,
        (∀ b ∈ tapChunksMoved st, b.length ≤ ETH_MTU) ∧
        (serBytesMoved st).length ≤ ETH_MTU) := by
  intro h
  have hne : List.replicate 1501 (0 : Nat) ≠ [] := by
    intro hcon
    have hlen := congrArg List.length hcon
    rw [List.length_replicate] at hlen
    exact absurd hlen (by decide)
  have hie : (List.replicate 1501 (0 : Nat)).isEmpty = false := by
    rw [Bool.eq_false_iff]
    intro htrue
    exact hne (List.isEmpty_iff.mp htrue)
  have hmem : List.replicate 1501 0 ∈ tapChunksMoved ⟨List.replicate 1501 0, [], [], []⟩ := by
    unfold tapChunksMoved
    rw [loopIter_eq]
    simp only [hie, Bool.false_eq_true, if_false, List.nil_append,
      List.length_nil, List.drop_zero]
    exact List.mem_singleton.mpr rfl
  have hlen := (h ⟨List.replicate 1501 0, [], [], []⟩).1 (List.replicate 1501 0) hmem
  rw [List.length_replicate] at hlen
  exact absurd hlen (by decide)

/-- C4 amended: every buffer moved in the TAP-to-serial direction of one
forwarding step contains at most ETH_MTU = 1500 bytes, while a buffer
moved in the serial-to-TAP direction contains exactly the bytes
currently waiting on the serial endpoint, which can exceed 1500. -/
theorem c4_frame_size_amended (st : BridgeState) :
    (serBytesMoved st).length ≤ ETH_MTU ∧
    (∀ b ∈ tapChunksMoved st, b = st.ser_buf) := by
  constructor
  · have : serBytesMoved st = (st.tap_frames.headD []).take ETH_MTU := by
      simp [serBytesMoved, loopIter_eq, List.drop_left]
    rw [this]
    calc ((st.tap_frames.headD []).take ETH_MTU).length
        = min ETH_MTU (st.tap_frames.headD []).length := List.length_take ..
      _ ≤ ETH_MTU := Nat.min_le_left ..
  · intro b hb
    have : tapChunksMoved st = if st.ser_buf.isEmpty then [] else [st.ser_buf] := by
      simp [tapChunksMoved, loopIter_eq, List.drop_left]
    rw [this] at hb
    rcases hst : st.ser_buf.isEmpty with _ | _ <;> rw [hst] at hb <;> simp at hb
    exact hb

/-- C4 amended witness: in a concrete step the serial-side buffer is
within the MTU and the TAP-side buffer equals the waiting bytes. -/
theorem c4_frame_size_amended_witness :
    (serBytesMoved ⟨[7, 8], [[1, 2, 3]], [], []⟩).length ≤ ETH_MTU ∧
    [7, 8] = (⟨[7, 8], [[1, 2, 3]], [], []⟩ : BridgeState).ser_buf :=
  ⟨(c4_frame_size_amended ⟨[7, 8], [[1, 2, 3]], [], []⟩).1,
   (c4_frame_size_amended ⟨[7, 8], [[1, 2, 3]], [], []⟩).2 [7, 8] (by decide)⟩

/-- Selected path of detect_esp32_acm when candidates exist: head of the
vendor-matched list, or the first sorted candidate when none match. -/
theorem detect_fst_eq (paths : List String) (meta : String → MetaResult)
    (c0 : String) (rest : List String) (hsp : sortedPaths paths = c0 :: rest) :
    (detect_esp32_acm paths meta).fst =
      match matchedPorts paths meta with
      | [] => some c0
      | p :: _ => some p := by
  have hfst : (scan meta (c0 :: rest)).fst = matchedPorts paths meta := by
    rw [scan_fst meta]
    unfold matchedPorts
    rw [hsp]
  unfold detect_esp32_acm
  rw [hsp]
  cases hm : matchedPorts paths meta with
  | nil =>
    rw [hm] at hfst
    simp only [hfst]
  | cons p ps =>
    rw [hm] at hfst
    cases ps <;> simp only [hfst]

/-- Diagnostics of detect_esp32_acm when candidates exist: the scan
diagnostics followed by one selection diagnostic. -/
theorem detect_snd_eq (paths : List String) (meta : String → MetaResult)
    (c0 : String) (rest : List String) (hsp : sortedPaths paths = c0 :: rest) :
    ∃ extra, (detect_esp32_acm paths meta).snd = (scan meta (c0 :: rest)).snd ++ [extra] := by
  unfold detect_esp32_acm
  rw [hsp]
  cases hm : (scan meta (c0 :: rest)).fst with
  | nil => exact ⟨Diag.fallbackFirst c0, by simp only [hm]⟩
  | cons p ps =>
    cases ps with
    | nil => exact ⟨Diag.selectedUnique p, by simp only [hm]⟩
    | cons q more => exact ⟨Diag.ambiguous (p :: q :: more), by simp only [hm]⟩

/-- C1: discovery selection policy.  detect_esp32_acm returns NotFound
(none) exactly when the enumerated candidate set is empty; returns the
unique vendor-matched candidate when exactly one matches; returns the
first vendor-matched path in sorted-by-path order when several match;
and falls back to the first path in sorted-by-path order among all
enumerated candidates when none match but candidates exist. -/
theorem c1_selection_policy (paths : List String) (meta : String → MetaResult) :
    ((detect_esp32_acm paths meta).fst = none ↔ paths = []) ∧
    (∀ p, matchedPorts paths meta = [p] → (detect_esp32_acm paths meta).fst = some p) ∧
    (matchedPorts paths meta ≠ [] →
      (detect_esp32_acm paths meta).fst = (matchedPorts paths meta).head?) ∧
    (matchedPorts paths meta = [] → paths ≠ [] →
      (detect_esp32_acm paths meta).fst = (sortedPaths paths).head?) := by
  cases hsp : sortedPaths paths with
  | nil =>
    have hpaths : paths = [] := (sortedPaths_nil_iff paths).mp hsp
    have hmp : matchedPorts paths meta = [] := by
      unfold matchedPorts
      rw [hsp]
      rfl
    have hdet : (detect_esp32_acm paths meta).fst = none := by
      unfold detect_esp32_acm
      rw [hsp]
    refine ⟨?_, ?_, ?_, ?_⟩
    · rw [hdet]
      simp [hpaths]
    · intro p hp
      rw [hmp] at hp
      cases hp
    · intro hne
      exact absurd hmp hne
    · intro _ hne
      exact absurd hpaths hne
  | cons c0 rest =>
    have hpaths : paths ≠ [] := by
      intro hcon
      rw [hcon] at hsp
      simp [sortedPaths, List.insertionSort] at hsp
    have hfst := detect_fst_eq paths meta c0 rest hsp
    refine ⟨?_, ?_, ?_, ?_⟩
    · rw [hfst]
      cases matchedPorts paths meta <;> simp [hpaths]
    · intro p hp
      rw [hfst, hp]
    · intro hne
      rw [hfst]
      cases hm : matchedPorts paths meta with
      | nil => exact absurd hm hne
      | cons p ps => rfl
    · intro hmp _
      rw [hfst, hmp]
      rfl

/-- C1 witness: the concrete scenario from the testable properties, with
candidates dev x0 (vendor 303a) and dev x1 (vendor 1234): discovery
returns the unique match dev x0. -/
theorem c1_selection_policy_witness :
    (detect_esp32_acm ["/dev/x1", "/dev/x0"]
      (fun d => if d == "/dev/x0" then MetaResult.ok "303a" "1001"
                else MetaResult.ok "1234" "1001")).fst = some "/dev/x0" :=
  (c1_selection_policy ["/dev/x1", "/dev/x0"]
      (fun d => if d == "/dev/x0" then MetaResult.ok "303a" "1001"
                else MetaResult.ok "1234" "1001")).2.1 "/dev/x0" (by decide)

/-- C7: case-insensitive vendor match.  The comparison in
detect_esp32_acm succeeds exactly when the stripped stored attribute
and the expected vendor id agree after lowercasing both sides, that is,
they are equal ignoring case. -/
theorem c7_case_insensitive_vendor_match (s : String) :
    vendorMatches s = true ↔ pyLower (pyStrip s) = pyLower ESPRESSIF_USB_VID := by
  unfold vendorMatches
  rw [show pyLower ESPRESSIF_USB_VID = ESPRESSIF_USB_VID from by decide]
  exact beq_iff_eq

/-- C7 witness: an upper-case stored attribute with surrounding
whitespace matches the lower-case expected vendor id. -/
theorem c7_case_insensitive_vendor_match_witness :
    vendorMatches " 303A\n" = true :=
  (c7_case_insensitive_vendor_match " 303A\n").mpr (by decide)

/-- C9: discovery determinism.  For a fixed candidate set with fixed
metadata, the result of discovery, selected path and diagnostics alike,
does not depend on the enumeration order: any two permutations of the
candidate list give identical results, because candidates are sorted by
path before selection. -/
theorem c9_discovery_determinism (paths paths' : List String)
    (meta : String → MetaResult) (h : paths.Perm paths') :
    detect_esp32_acm paths meta = detect_esp32_acm paths' meta := by
  unfold detect_esp32_acm
  rw [sortedPaths_eq_of_perm paths paths' h]

/-- C9 witness: the two enumeration orders of a concrete two-candidate
set give the same discovery result. -/
theorem c9_discovery_determinism_witness :
    detect_esp32_acm ["/dev/ttyACM1", "/dev/ttyACM0"] (fun _ => MetaResult.ok "303a" "1001") =
    detect_esp32_acm ["/dev/ttyACM0", "/dev/ttyACM1"] (fun _ => MetaResult.ok "303a" "1001") :=
  c9_discovery_determinism _ _ _ (by decide)

/-- Bounded walk: a node returned by the fuel-indexed walk exposes both
attributes and lies among the first fuel iterated parents of the start
node. -/
theorem walk_bounded (hasAttrs : String → Bool) (dirname : String → String) :
    ∀ (fuel : Nat) (start q : String),
      find_usb_parent_walk hasAttrs dirname fuel start = some q →
      hasAttrs q = true ∧ q ∈ (List.range fuel).map (fun k => dirname^[k] start)
  | 0, start, q => fun h => by simp [find_usb_parent_walk] at h
  | Nat.succ fuel, start, q => fun h => by
    by_cases hstart : hasAttrs start
    · rw [find_usb_parent_walk, if_pos hstart] at h
      have hq : start = q := Option.some.inj h
      subst hq
      refine ⟨hstart, List.mem_map.mpr ⟨0, ?_, rfl⟩⟩
      exact List.mem_range.mpr (Nat.succ_pos fuel)
    · rw [find_usb_parent_walk, if_neg hstart] at h
      by_cases heq : dirname start == start
      · rw [if_pos heq] at h
        cases h
      · rw [if_neg heq] at h
        obtain ⟨hq, hmem⟩ := walk_bounded hasAttrs dirname fuel (dirname start) q h
        refine ⟨hq, ?_⟩
        obtain ⟨k, hk, hkq⟩ := List.mem_map.mp hmem
        refine List.mem_map.mpr ⟨k + 1, ?_, ?_⟩
        · exact List.mem_range.mpr (Nat.succ_lt_succ (List.mem_range.mp hk))
        · rw [Function.iterate_succ_apply]
          exact hkq

/-- C8: bounded metadata walk with non-fatal skip.  A successful walk
result lies among the five nodes reached from the start by zero to four
dirname hops and exposes both attributes; a candidate whose metadata
lookup fails is never vendor-matched, is reported with a diagnostic,
and discovery still returns a path whenever any candidate exists. -/
theorem c8_bounded_walk_nonfatal_skip (hasAttrs : String → Bool)
    (dirname : String → String) (start q : String)
    (paths : List String) (meta : String → MetaResult) (dev : String) :
    (find_usb_parent_sysfs hasAttrs dirname start = some q →
      hasAttrs q = true ∧ q ∈ (List.range 5).map (fun k => dirname^[k] start)) ∧
    (meta dev = MetaResult.noParent ∨ meta dev = MetaResult.readFailed →
      dev ∉ matchedPorts paths meta) ∧
    (meta dev = MetaResult.noParent → dev ∈ sortedPaths paths →
      Diag.noParent dev ∈ (detect_esp32_acm paths meta).snd) ∧
    (meta dev = MetaResult.readFailed → dev ∈ sortedPaths paths →
      Diag.readFailed dev ∈ (detect_esp32_acm paths meta).snd) ∧
    (paths ≠ [] → (detect_esp32_acm paths meta).fst ≠ none) := by
  refine ⟨walk_bounded hasAttrs dirname 5 start q, ?_, ?_, ?_, ?_⟩
  · intro hfail hmem
    have := List.of_mem_filter hmem
    rcases hfail with hf | hf <;> rw [hf] at this <;> cases this
  · intro hmeta hmem
    cases hsp : sortedPaths paths with
    | nil => rw [hsp] at hmem; cases hmem
    | cons c0 rest =>
      obtain ⟨extra, hsnd⟩ := detect_snd_eq paths meta c0 rest hsp
      rw [hsnd]
      rw [hsp] at hmem
      exact List.mem_append_left _ (scan_snd_noParent meta (c0 :: rest) dev hmem hmeta)
  · intro hmeta hmem
    cases hsp : sortedPaths paths with
    | nil => rw [hsp] at hmem; cases hmem
    | cons c0 rest =>
      obtain ⟨extra, hsnd⟩ := detect_snd_eq paths meta c0 rest hsp
      rw [hsnd]
      rw [hsp] at hmem
      exact List.mem_append_left _ (scan_snd_readFailed meta (c0 :: rest) dev hmem hmeta)
  · intro hne
    cases hsp : sortedPaths paths with
    | nil => exact absurd ((sortedPaths_nil_iff paths).mp hsp) hne
    | cons c0 rest =>
      rw [detect_fst_eq paths meta c0 rest hsp]
      cases matchedPorts paths meta <;> simp

/-- C8 witness: with a single candidate whose sysfs walk fails, the
failure is reported and discovery still selects a path; and a concrete
two-hop walk returns the parent node that exposes the attributes. -/
theorem c8_bounded_walk_nonfatal_skip_witness :
    Diag.noParent "/dev/ttyACM0" ∈
      (detect_esp32_acm ["/dev/ttyACM0"] (fun _ => MetaResult.noParent)).snd ∧
    (detect_esp32_acm ["/dev/ttyACM0"] (fun _ => MetaResult.noParent)).fst ≠ none ∧
    (fun s => s == "/sys/usb1") "/sys/usb1" = true :=
  ⟨(c8_bounded_walk_nonfatal_skip (fun s => s == "/sys/usb1") (fun _ => "/sys/usb1")
      "/sys/usb1/tty0" "/sys/usb1" ["/dev/ttyACM0"] (fun _ => MetaResult.noParent)
      "/dev/ttyACM0").2.2.1 rfl (by decide),
   (c8_bounded_walk_nonfatal_skip (fun s => s == "/sys/usb1") (fun _ => "/sys/usb1")
      "/sys/usb1/tty0" "/sys/usb1" ["/dev/ttyACM0"] (fun _ => MetaResult.noParent)
      "/dev/ttyACM0").2.2.2.2 (by decide),
   ((c8_bounded_walk_nonfatal_skip (fun s => s == "/sys/usb1") (fun _ => "/sys/usb1")
      "/sys/usb1/tty0" "/sys/usb1" ["/dev/ttyACM0"] (fun _ => MetaResult.noParent)
      "/dev/ttyACM0").1 (by decide)).1⟩

/-- C5: setup-failure atomicity.  Whenever setup fails (serial open
fails, or serial opens but TAP creation fails), the trace ends in a
non-zero exit, every opened handle has been closed before that exit
(open and close events balance for both handles), and in the specific
case where the serial port opened and TAP creation failed the serial
close event occurs before the exit. -/
theorem c5_setup_failure_atomicity (env : SetupEnv) (ex : LoopExit)
    (h : env.serialOpens = false ∨ env.tapCreates = false) :
    exitOf (mainTrace env ex) ≠ none ∧
    exitOf (mainTrace env ex) ≠ some 0 ∧
    (preExit (mainTrace env ex)).count Ev.closeSerial =
      (preExit (mainTrace env ex)).count Ev.openSerial ∧
    (preExit (mainTrace env ex)).count Ev.closeTap =
      (preExit (mainTrace env ex)).count Ev.createTap ∧
    (env.serialOpens = true → Ev.closeSerial ∈ preExit (mainTrace env ex)) := by
  obtain ⟨so, tc⟩ := env
  cases so with
  | false => cases tc <;> cases ex <;> decide
  | true =>
    cases tc with
    | false => cases ex <;> decide
    | true => rcases h with h | h <;> exact Bool.noConfusion h

/-- C5 witness: serial opens, TAP creation fails; the serial handle is
closed before the non-zero exit. -/
theorem c5_setup_failure_atomicity_witness :
    Ev.closeSerial ∈ preExit (mainTrace ⟨true, false⟩ LoopExit.ioFailure) ∧
    exitOf (mainTrace ⟨true, false⟩ LoopExit.ioFailure) ≠ some 0 :=
  ⟨(c5_setup_failure_atomicity ⟨true, false⟩ LoopExit.ioFailure (Or.inr rfl)).2.2.2.2 rfl,
   (c5_setup_failure_atomicity ⟨true, false⟩ LoopExit.ioFailure (Or.inr rfl)).2.1⟩

/-- C6: release on every loop-exit path.  When both endpoints opened and
the loop then exits, by cancellation or by an I/O failure, both the
serial handle and the TAP handle are closed exactly once before the
exit event; on cancellation the shutdown notice is printed and the exit
code is zero, while an I/O failure exits non-zero. -/
theorem c6_release_on_loop_exit (env : SetupEnv) (ex : LoopExit)
    (hs : env.serialOpens = true) (ht : env.tapCreates = true) :
    (preExit (mainTrace env ex)).count Ev.closeSerial = 1 ∧
    (preExit (mainTrace env ex)).count Ev.closeTap = 1 ∧
    (preExit (mainTrace env ex)).count Ev.openSerial = 1 ∧
    (preExit (mainTrace env ex)).count Ev.createTap = 1 ∧
    (ex = LoopExit.cancelled →
      exitOf (mainTrace env ex) = some 0 ∧
      Ev.shutdownNotice ∈ preExit (mainTrace env ex)) ∧
    (ex = LoopExit.ioFailure →
      exitOf (mainTrace env ex) ≠ none ∧ exitOf (mainTrace env ex) ≠ some 0) := by
  obtain ⟨so, tc⟩ := env
  cases so with
  | false => exact Bool.noConfusion hs
  | true =>
    cases tc with
    | false => exact Bool.noConfusion ht
    | true => cases ex <;> decide

/-- C6 witness: on cancellation after a successful setup, both handles
are closed once, the shutdown notice is printed and the exit code is
zero. -/
theorem c6_release_on_loop_exit_witness :
    exitOf (mainTrace ⟨true, true⟩ LoopExit.cancelled) = some 0 ∧
    Ev.shutdownNotice ∈ preExit (mainTrace ⟨true, true⟩ LoopExit.cancelled) ∧
    (preExit (mainTrace ⟨true, true⟩ LoopExit.cancelled)).count Ev.closeSerial = 1 ∧
    (preExit (mainTrace ⟨true, true⟩ LoopExit.cancelled)).count Ev.closeTap = 1 :=
  ⟨((c6_release_on_loop_exit ⟨true, true⟩ LoopExit.cancelled rfl rfl).2.2.2.2.1 rfl).1,
   ((c6_release_on_loop_exit ⟨true, true⟩ LoopExit.cancelled rfl rfl).2.2.2.2.1 rfl).2,
   (c6_release_on_loop_exit ⟨true, true⟩ LoopExit.cancelled rfl rfl).1,
   (c6_release_on_loop_exit ⟨true, true⟩ LoopExit.cancelled rfl rfl).2.1⟩
